import Mathlib

/-!
Shallow embedding of the core logic of the `ai-release-notes-action` repository.

JavaScript strings are modelled as `List Char` (`JStr`).  Each definition below
is translated from a named function of the source; stateful methods that only
read their inputs are modelled as pure functions of those inputs.
-/

set_option maxRecDepth 10000

abbrev JStr := List Char

/-- Whitespace characters recognised by JavaScript `\s`, `String.prototype.trim`
and friends (ASCII whitespace plus the Unicode space characters). -/
def isJsWs (c : Char) : Bool :=
  c = ' ' || c = '\t' || c = '\n' || c = '\r' ||
  c = Char.ofNat 11 || c = Char.ofNat 12 || c = Char.ofNat 0xa0 ||
  c = Char.ofNat 0x1680 || (0x2000 ≤ c.toNat && c.toNat ≤ 0x200a) ||
  c = Char.ofNat 0x2028 || c = Char.ofNat 0x2029 || c = Char.ofNat 0x202f ||
  c = Char.ofNat 0x205f || c = Char.ofNat 0x3000 || c = Char.ofNat 0xfeff

/-- Model of JavaScript `str.trimEnd()` on the character-list view. -/
def trimRightJs (l : JStr) : JStr :=
  (l.reverse.dropWhile isJsWs).reverse

/-- Model of JavaScript `str.trim()`. -/
def trimJs (l : JStr) : JStr :=
  trimRightJs (l.dropWhile isJsWs)

/-- ASCII lower-casing of one character (the classifier inputs are ASCII;
JavaScript `toLowerCase` agrees with this on ASCII). -/
def lowerChar (c : Char) : Char :=
  if 'A' ≤ c && c ≤ 'Z' then Char.ofNat (c.toNat + 32) else c

/-- Model of JavaScript `str.toLowerCase()`. -/
def toLowerJs (l : JStr) : JStr := l.map lowerChar

/-- Model of JavaScript `hay.includes(needle)`. -/
def containsSub (needle : JStr) : JStr → Bool
  | [] => needle.isPrefixOf []
  | c :: t => needle.isPrefixOf (c :: t) || containsSub needle t

/-- First index at which `needle` occurs in the string, if any
(the search carried out by a regular-expression literal match). -/
def findFirstIdx (needle : JStr) : JStr → Option Nat
  | [] => if needle.isPrefixOf [] then some 0 else none
  | c :: t =>
    if needle.isPrefixOf (c :: t) then some 0
    else (findFirstIdx needle t).map (· + 1)

/-- Model of JavaScript `str.split(sep)` for a one-character separator. -/
def splitOnCh (sep : Char) : JStr → List JStr
  | [] => [[]]
  | c :: t =>
    if c = sep then [] :: splitOnCh sep t
    else
      match splitOnCh sep t with
      | s :: ss => (c :: s) :: ss
      | [] => [[c]]

/-- Model of JavaScript `parts.join(sep)`. -/
def joinWith (sep : JStr) (xs : List JStr) : JStr :=
  match xs with
  | [] => []
  | x :: t => x ++ (t.map (fun y => sep ++ y)).flatten

/-- First line of a string: `str.split('\n')[0]`. -/
def firstLine (l : JStr) : JStr := l.takeWhile (· ≠ '\n')

def isDigitCh (c : Char) : Bool := '0' ≤ c && c ≤ '9'

def isAsciiAlphaCh (c : Char) : Bool :=
  ('a' ≤ c && c ≤ 'z') || ('A' ≤ c && c ≤ 'Z')

def digitsToNat (l : JStr) : Nat :=
  l.foldl (fun acc c => acc * 10 + (c.toNat - '0'.toNat)) 0

def natToJStr (n : Nat) : JStr := Nat.toDigits 10 n

def intToJStr (i : Int) : JStr :=
  if i < 0 then '-' :: natToJStr i.natAbs else natToJStr i.toNat

/-! ### npm `semver` model

The `versioning` module delegates semantic-version validation and increments to
the npm `semver` package.  `semver.valid` / `semver.inc` parse with the `FULL`
pattern `v? MAIN PRERELEASE? BUILD?` after trimming, reject overlong inputs and
main components beyond `Number.MAX_SAFE_INTEGER`. -/

def maxSafeInteger : Nat := 9007199254740991

/-- Character class `[0-9a-zA-Z-]` of semver identifiers. -/
def isIdentCh (c : Char) : Bool := isDigitCh c || isAsciiAlphaCh c || c = '-'

/-- Numeric identifier `0|[1-9]\d*` bounded by `MAX_SAFE_INTEGER`; returns the
value and the rest of the input. -/
def parseNumIdent (l : JStr) : Option (Nat × JStr) :=
  let ds := l.takeWhile isDigitCh
  let rest := l.dropWhile isDigitCh
  if ds = [] then none
  else if ds ≠ ['0'] && ds.head? = some '0' then none
  else if digitsToNat ds > maxSafeInteger then none
  else some (digitsToNat ds, rest)

/-- Prerelease identifier `0|[1-9]\d*|\d*[a-zA-Z-][0-9a-zA-Z-]*`. -/
def validPreId (seg : JStr) : Bool :=
  seg ≠ [] && seg.all isIdentCh &&
    (if seg.all isDigitCh then seg = ['0'] || seg.head? ≠ some '0' else true)

/-- Build identifier `[0-9a-zA-Z-]+`. -/
def validBuildId (seg : JStr) : Bool :=
  seg ≠ [] && seg.all isIdentCh

/-- Split at the first occurrence of a character, returning the part before it
and (when found) the part after it. -/
def splitAtFirst (sep : Char) : JStr → JStr × Option JStr
  | [] => ([], none)
  | c :: t =>
    if c = sep then ([], some t)
    else
      let (a, b) := splitAtFirst sep t
      (c :: a, b)

/-- Parse the part of a semver string after `major.minor.patch`: an optional
`-prerelease` followed by an optional `+build`. Returns the prerelease ids. -/
def parseSemverTail (l : JStr) : Option (List JStr) :=
  match l with
  | [] => some []
  | '-' :: r =>
    let (preStr, buildPart) := splitAtFirst '+' r
    let preIds := splitOnCh '.' preStr
    if preIds.all validPreId &&
        (match buildPart with
         | none => true
         | some b => (splitOnCh '.' b).all validBuildId) then
      some preIds
    else none
  | '+' :: r =>
    if (splitOnCh '.' r).all validBuildId then some [] else none
  | _ => none

/-- Parse a semver string the way `new SemVer(version)` does: length cap,
trim, optional `v`, dotted numeric triple, optional prerelease and build.
Returns `(major, minor, patch, prerelease ids)`. -/
def semverParse (s : JStr) : Option (Nat × Nat × Nat × List JStr) :=
  if s.length > 256 then none
  else
    let t0 := trimJs s
    let t := if t0.head? = some 'v' then t0.tail else t0
    match parseNumIdent t with
    | none => none
    | some (ma, r1) =>
      match r1 with
      | '.' :: r2 =>
        match parseNumIdent r2 with
        | none => none
        | some (mi, r3) =>
          match r3 with
          | '.' :: r4 =>
            match parseNumIdent r4 with
            | none => none
            | some (pa, r5) =>
              (parseSemverTail r5).map (fun pre => (ma, mi, pa, pre))
          | _ => none
      | _ => none

/-- Model of `semver.valid(x) !== null`. -/
def semverValid (s : JStr) : Bool := (semverParse s).isSome

/-- Model of `semver.inc(version, release)` for the three release kinds used
by the code (`null` result is `none`). -/
def semverInc (s : JStr) (release : JStr) : Option JStr :=
  match semverParse s with
  | none => none
  | some (ma, mi, pa, pre) =>
    let fmt := fun (a b c : Nat) =>
      natToJStr a ++ '.' :: natToJStr b ++ '.' :: natToJStr c
    if release = "major".data then
      some (fmt (if mi ≠ 0 || pa ≠ 0 || pre.isEmpty then ma + 1 else ma) 0 0)
    else if release = "minor".data then
      some (fmt ma (if pa ≠ 0 || pre.isEmpty then mi + 1 else mi) 0)
    else if release = "patch".data then
      some (fmt ma mi (if pre.isEmpty then pa + 1 else pa))
    else none

/-! ### `VersionManager` (modules/versioning.js) -/

/-- Mirror of `VersionManager.cleanVersion`: the prefix-stripping `for` loop
with `break` — the first of `v`, `release-`, `version-` that matches is
removed, the others are not tried. -/
def stripVersionPref (version : JStr) : JStr :=
  if "v".data.isPrefixOf version then version.drop 1
  else if "release-".data.isPrefixOf version then version.drop 8
  else if "version-".data.isPrefixOf version then version.drop 8
  else version

/-- Mirror of `VersionManager.cleanVersion`. -/
def cleanVersion (version : JStr) : JStr :=
  let cleaned := stripVersionPref version
  if semverValid cleaned then cleaned else "1.0.0".data

/-- Mirror of `VersionManager.basicIncrement`'s `parseInt(n) || 0`
(`parseInt` skips leading whitespace, honours a sign and a hex prefix, and
`|| 0` maps `NaN` to zero). -/
def parseIntOr0 (l : JStr) : Int :=
  let t := l.dropWhile isJsWs
  let core := fun (r : JStr) =>
    match r with
    | '0' :: 'x' :: rest =>
      let hs := rest.takeWhile (fun c =>
        isDigitCh c || ('a' ≤ c && c ≤ 'f') || ('A' ≤ c && c ≤ 'F'))
      if hs = [] then none
      else some (hs.foldl (fun acc c =>
        acc * 16 + (if isDigitCh c then c.toNat - '0'.toNat
          else if 'a' ≤ c then c.toNat - 'a'.toNat + 10
          else c.toNat - 'A'.toNat + 10)) 0)
    | '0' :: 'X' :: rest =>
      let hs := rest.takeWhile (fun c =>
        isDigitCh c || ('a' ≤ c && c ≤ 'f') || ('A' ≤ c && c ≤ 'F'))
      if hs = [] then none
      else some (hs.foldl (fun acc c =>
        acc * 16 + (if isDigitCh c then c.toNat - '0'.toNat
          else if 'a' ≤ c then c.toNat - 'a'.toNat + 10
          else c.toNat - 'A'.toNat + 10)) 0)
    | r =>
      let ds := r.takeWhile isDigitCh
      if ds = [] then none else some (digitsToNat ds)
  match t with
  | '-' :: r => match core r with
    | some n => -(n : Int)
    | none => 0
  | '+' :: r => match core r with
    | some n => (n : Int)
    | none => 0
  | r => match core r with
    | some n => (n : Int)
    | none => 0

/-- Mirror of `VersionManager.basicIncrement` (the `try` body cannot throw on
list inputs, so the `'1.0.1'` catch branch is unreachable in the model). -/
def basicIncrement (currentVersion increment : JStr) : JStr :=
  let parts := (splitOnCh '.' currentVersion).map parseIntOr0
  let parts := parts ++ List.replicate (3 - parts.length) 0
  let major := parts.getD 0 0
  let minor := parts.getD 1 0
  let patch := parts.getD 2 0
  if increment = "major".data then intToJStr (major + 1) ++ ".0.0".data
  else if increment = "minor".data then
    intToJStr major ++ '.' :: intToJStr (minor + 1) ++ ".0".data
  else
    intToJStr major ++ '.' :: intToJStr minor ++ '.' :: intToJStr (patch + 1)

/-- Mirror of `VersionManager.incrementVersion`: invalid increments degrade to
`patch`; a `null` from `semver.inc` raises, is caught, and falls back to
`basicIncrement`. -/
def incrementVersion (currentVersion increment : JStr) : JStr :=
  let inc :=
    if increment = "patch".data || increment = "minor".data ||
        increment = "major".data then increment
    else "patch".data
  match semverInc currentVersion inc with
  | some v => v
  | none => basicIncrement currentVersion inc

/-- Result record of `VersionManager.generateVersion` (without the
`buildNumber` field, which `main.js` attaches separately). -/
structure VersionCore where
  newVersion : JStr
  previousVersion : JStr
  tagName : JStr
  cleanPreviousVersion : JStr
  deriving Repr, DecidableEq

/-- Mirror of `VersionManager.generateVersion`, as a pure function of the
latest tag and short commit id fetched from git, the resolved increment, and
the configuration's production flag and version prefix. -/
def generateVersion (isProduction : Bool) (versionPref : JStr)
    (latestTag : JStr) (increment : JStr) (shortCommit : JStr) : VersionCore :=
  let cleanLatestVersion := cleanVersion latestTag
  let newVersion :=
    if isProduction then incrementVersion cleanLatestVersion increment
    else cleanLatestVersion ++ "-dev.".data ++ shortCommit
  { newVersion := newVersion
    previousVersion := latestTag
    tagName := versionPref ++ newVersion
    cleanPreviousVersion := cleanLatestVersion }

/-- Mirror of `GitUtils.getLatestTag`: the trimmed output of
`git describe --tags --abbrev=0` when the command succeeded with non-empty
output, else the literal `1.0.0`. -/
def getLatestTagResult (exitCode : Int) (output : JStr) : JStr :=
  if exitCode = 0 && trimJs output ≠ [] then trimJs output else "1.0.0".data

/-! ### Trigger evaluator (`checkTriggerConditions` in main.js) -/

structure TriggerPR where
  merged : Bool
  baseRef : JStr
  labels : List JStr

structure TriggerContext where
  eventName : JStr
  pr : TriggerPR

structure TriggerConfigIn where
  triggerLabel : JStr
  targetBranch : JStr

structure TriggerResult where
  run : Bool
  reason : JStr
  deriving Repr, DecidableEq

def allowedBranches : List JStr :=
  ["main".data, "master".data, "dev".data, "development".data]

/-- Mirror of `checkTriggerConditions(config, context)`.  The
`payload.pull_request` object is modelled as always present (the event check
guards every later access in the source); `skip_if_no_changes` only logs and
is inert. -/
def checkTriggerConditions (cfg : TriggerConfigIn) (ctx : TriggerContext) :
    TriggerResult :=
  if ctx.eventName ≠ "pull_request".data then
    ⟨false, "Not a pull request event".data⟩
  else if ¬ ctx.pr.merged then
    ⟨false, "PR is not merged".data⟩
  else if ctx.pr.baseRef ≠ cfg.targetBranch ∧ ctx.pr.baseRef ∉ allowedBranches then
    ⟨false, "Target branch ".data ++ ctx.pr.baseRef ++ " not in allowed list".data⟩
  else if cfg.triggerLabel ≠ [] ∧ cfg.triggerLabel ∉ ctx.pr.labels then
    ⟨false, "Missing required label: ".data ++ cfg.triggerLabel⟩
  else
    ⟨true, "All conditions met".data⟩

/-! ### `PRAnalyzer.analyzeChanges` (utils/pr-analyzer.js) -/

/-- Commit shape produced by `getPRCommits` (the fields `analyzeChanges` and
the release-note generator use). -/
structure CommitRec where
  message : JStr
  shortSha : JStr
  url : JStr

/-- Pull-request metadata fields read by `analyzeChanges`; optional fields
mirror the `|| 'unknown'` / `?.` defaults of the source. -/
structure PRMeta where
  title : JStr
  body : Option JStr
  labels : List JStr
  baseRef : Option JStr
  headRef : Option JStr
  userLogin : Option JStr
  createdAt : JStr
  mergedAt : JStr

structure Analysis where
  title : JStr
  body : JStr
  labels : List JStr
  baseBranch : JStr
  headBranch : JStr
  author : JStr
  createdAt : JStr
  mergedAt : JStr
  filesChanged : List JStr
  changeTypes : List JStr
  isBreakingChange : Bool
  isBugfix : Bool
  isFeature : Bool
  isChore : Bool

/-- `Set.add` followed (at the end) by `Array.from`: an insertion-ordered
duplicate-free list. -/
def addChangeType (s : List JStr) (x : JStr) : List JStr :=
  if x ∈ s then s else s ++ [x]

def commitIsBreaking (c : CommitRec) : Bool :=
  containsSub "breaking change".data (toLowerJs c.message) ||
    containsSub "!:".data (toLowerJs c.message)

def commitIsFeat (c : CommitRec) : Bool :=
  "feat".data.isPrefixOf (toLowerJs c.message)

def commitIsFix (c : CommitRec) : Bool :=
  "fix".data.isPrefixOf (toLowerJs c.message)

def commitIsChore (c : CommitRec) : Bool :=
  "chore".data.isPrefixOf (toLowerJs c.message) ||
    "ci".data.isPrefixOf (toLowerJs c.message) ||
    "docs".data.isPrefixOf (toLowerJs c.message)

/-- Body of the commit-classification `forEach`. -/
def commitStep (a : Analysis) (c : CommitRec) : Analysis :=
  let a := if commitIsBreaking c then
    { a with isBreakingChange := true,
             changeTypes := addChangeType a.changeTypes "breaking".data }
    else a
  let a := if commitIsFeat c then
    { a with isFeature := true,
             changeTypes := addChangeType a.changeTypes "feature".data }
    else a
  let a := if commitIsFix c then
    { a with isBugfix := true,
             changeTypes := addChangeType a.changeTypes "bugfix".data }
    else a
  if commitIsChore c then
    { a with isChore := true,
             changeTypes := addChangeType a.changeTypes "chore".data }
  else a

def labelIsBreaking (lab : JStr) : Bool :=
  containsSub "breaking".data (toLowerJs lab)

def labelIsFix (lab : JStr) : Bool :=
  containsSub "bug".data (toLowerJs lab) || containsSub "fix".data (toLowerJs lab)

def labelIsFeature (lab : JStr) : Bool :=
  containsSub "feature".data (toLowerJs lab) ||
    containsSub "enhancement".data (toLowerJs lab)

/-- Body of the label-classification `forEach`. -/
def labelStep (a : Analysis) (lab : JStr) : Analysis :=
  let a := if labelIsBreaking lab then
    { a with isBreakingChange := true,
             changeTypes := addChangeType a.changeTypes "breaking".data }
    else a
  let a := if labelIsFix lab then
    { a with isBugfix := true,
             changeTypes := addChangeType a.changeTypes "bugfix".data }
    else a
  if labelIsFeature lab then
    { a with isFeature := true,
             changeTypes := addChangeType a.changeTypes "feature".data }
  else a

/-- The `line.match(/diff --git a\/(.+) b\/(.+)/)` group 2: after the leftmost
occurrence of the literal `diff --git a/`, the greedy first group makes the
separator ` b/` the last occurrence that leaves both groups non-empty. -/
def diffLineFile (line : JStr) : Option JStr :=
  match findFirstIdx "diff --git a/".data line with
  | none => none
  | some i =>
    let r := line.drop (i + 13)
    let cands := (List.range r.length).filter (fun j =>
      0 < j && " b/".data.isPrefixOf (r.drop j) && j + 3 < r.length)
    (cands.getLast?).map (fun j => r.drop (j + 3))

/-- Body of the diff-scanning `forEach`. -/
def diffStep (a : Analysis) (line : JStr) : Analysis :=
  if "diff --git".data.isPrefixOf line then
    match diffLineFile line with
    | some f =>
      if f ∈ a.filesChanged then a
      else { a with filesChanged := a.filesChanged ++ [f] }
    | none => a
  else a

/-- The `analysis` object literal at the top of `analyzeChanges`. -/
def initialAnalysis (pr : PRMeta) : Analysis :=
  { title := pr.title
    body := pr.body.getD []
    labels := pr.labels
    baseBranch := pr.baseRef.getD "unknown".data
    headBranch := pr.headRef.getD "unknown".data
    author := pr.userLogin.getD "unknown".data
    createdAt := pr.createdAt
    mergedAt := pr.mergedAt
    filesChanged := []
    changeTypes := []
    isBreakingChange := false
    isBugfix := false
    isFeature := false
    isChore := false }

/-- The analysis after the commit-classification and label-classification
`forEach` passes of `analyzeChanges`. -/
def classifiedAnalysis (pr : PRMeta) (commits : List CommitRec) : Analysis :=
  pr.labels.foldl labelStep (commits.foldl commitStep (initialAnalysis pr))

/-- Mirror of `PRAnalyzer.analyzeChanges(pr, diff, commits)`.  `diff` is
`none` when the value is absent or not a string; the empty string is falsy in
the source's `if (diff && ...)` guard. -/
def analyzeChanges (pr : PRMeta) (diff : Option JStr)
    (commits : List CommitRec) : Analysis :=
  let a2 := classifiedAnalysis pr commits
  match diff with
  | some d => if d = [] then a2 else (splitOnCh '\n' d).foldl diffStep a2
  | none => a2

/-! ### `ReleaseNotesGenerator` (modules/release-notes.js, SDK variant) -/

/-- One backtracking attempt of `MARKER\s*\n([\s\S]*?)\nEND` at a fixed start:
the greedy `\s*` tries the newline positions inside the leading whitespace run
from the rightmost down, and the lazy group stops at the first occurrence of
the closing `\n`-prefixed marker. -/
def parseBlockAttempt (endMarker : JStr) (afterStart : JStr) : Option JStr :=
  let run := afterStart.takeWhile isJsWs
  let ks := (List.range run.length).filter (fun k => run.getD k ' ' = '\n')
  ks.reverse.findSome? (fun k =>
    (findFirstIdx endMarker (afterStart.drop (k + 1))).map
      (fun j => (afterStart.drop (k + 1)).take j))

/-- Leftmost match of `START\s*\n([\s\S]*?)\nEND` over the whole reply,
returning the raw captured group. -/
def regexBlockMatch (startMarker endMarker : JStr) : JStr → Option JStr
  | [] => none
  | c :: t =>
    if startMarker.isPrefixOf (c :: t) then
      match parseBlockAttempt endMarker ((c :: t).drop startMarker.length) with
      | some cap => some cap
      | none => regexBlockMatch startMarker endMarker t
    else regexBlockMatch startMarker endMarker t

/-- The trimmed `RELEASE_NOTES_START`/`RELEASE_NOTES_END` block, or the empty
(falsy) string when the pattern does not match. -/
def extractReleaseNotesBlock (s : JStr) : JStr :=
  match regexBlockMatch "RELEASE_NOTES_START".data "\nRELEASE_NOTES_END".data s with
  | some cap => trimJs cap
  | none => []

/-- The trimmed `SLACK_MESSAGE_START`/`SLACK_MESSAGE_END` block, or `''`. -/
def extractSlackBlock (s : JStr) : JStr :=
  match regexBlockMatch "SLACK_MESSAGE_START".data "\nSLACK_MESSAGE_END".data s with
  | some cap => trimJs cap
  | none => []

/-- Worker for `replaceBuildNumber`: `skip` counts characters of an already
recognised `BUILD_NUMBER` occurrence that remain to be discarded. -/
def replaceBNGo (b : JStr) : Nat → JStr → JStr
  | _, [] => []
  | Nat.succ n, _ :: t => replaceBNGo b n t
  | 0, c :: t =>
    if "BUILD_NUMBER".data.isPrefixOf (c :: t) then b ++ replaceBNGo b 11 t
    else c :: replaceBNGo b 0 t

/-- `str.replace(/BUILD_NUMBER/g, b)`: left-to-right non-overlapping literal
replacement (the build numbers substituted contain no `$` patterns). -/
def replaceBuildNumber (b : JStr) (s : JStr) : JStr :=
  replaceBNGo b 0 s

/-- Mirror of `ReleaseNotesGenerator.extractSlackSummary`. -/
def extractSlackSummary (text buildNumber : JStr) : JStr :=
  let lines := (splitOnCh '\n' text).filter (fun l => trimJs l ≠ [])
  "🚀 Build ".data ++ buildNumber ++ " deployed\n\n".data ++
    joinWith "\n".data (lines.take 5)

/-- Mirror of `ReleaseNotesGenerator.parseAIResponse(aiOutput, buildNumber)`,
returning `(releaseNotes, slackMessage)`.  The body performs no fallible
operation, so the surrounding `try`/`catch` never fires: parsing is total. -/
def parseAIResponse (aiOutput buildNumber : JStr) : JStr × JStr :=
  let releaseNotes := extractReleaseNotesBlock aiOutput
  let slackMessage := extractSlackBlock aiOutput
  let pair :=
    if releaseNotes = [] ∧ slackMessage = [] then
      (aiOutput, extractSlackSummary aiOutput buildNumber)
    else if releaseNotes = [] then
      (aiOutput, slackMessage)
    else if slackMessage = [] then
      (releaseNotes, extractSlackSummary releaseNotes buildNumber)
    else (releaseNotes, slackMessage)
  (replaceBuildNumber buildNumber pair.1, replaceBuildNumber buildNumber pair.2)

/-- Mirror of `ReleaseNotesGenerator.generateWithAI` given the backend
outcome: `backendOutput` is `some reply` when the call succeeded with
non-empty (trimmed) text, `none` when it errored or returned empty content.
A `some` result is the parsed reply; `none` makes the caller take the
template path. -/
def generateWithAI (backendOutput : Option JStr) (buildNumber : JStr) :
    Option (JStr × JStr) :=
  backendOutput.map (fun out => parseAIResponse out buildNumber)

/-- Configuration inputs read by `generateFromTemplate`. -/
structure GenConfig where
  environment : JStr
  maxCommitsFallback : Nat
  includeCommitLinks : Bool

/-- The `publicChanges` selection at the top of `generateFromTemplate`. -/
def publicSummary (a : Analysis) : JStr :=
  if a.isBreakingChange then
    "Breaking changes - please review migration notes".data
  else if a.isFeature then "New features and enhancements".data
  else if a.isBugfix then "Bug fixes and stability improvements".data
  else "General improvements and bug fixes".data

/-- The `internalChanges` list of `generateFromTemplate` (commit first lines,
optionally suffixed with a commit link, generic line when empty). -/
def internalChangeLines (cfg : GenConfig) (commits : Option (List CommitRec)) :
    List JStr :=
  let base : List JStr :=
    match commits with
    | some cs =>
      if cs.length > 0 then
        (cs.take cfg.maxCommitsFallback).map (fun c =>
          firstLine c.message ++
            (if cfg.includeCommitLinks then
              " ([".data ++ c.shortSha ++ "](".data ++ c.url ++ "))".data
            else []))
      else []
    | none => []
  if base.isEmpty then ["Various code improvements and maintenance".data]
  else base

/-- The `slackCommits` ternary of `generateFromTemplate`: a JavaScript array
is truthy even when empty, so only an absent (`null`/`undefined`) commit list
selects the generic line. -/
def slackCommitLines (commits : Option (List CommitRec)) : List JStr :=
  match commits with
  | some cs => (cs.take 3).map (fun c => firstLine c.message)
  | none => ["Various improvements".data]

/-- Mirror of `ReleaseNotesGenerator.generateFromTemplate`, returning
`(releaseNotes, slackMessage)`. -/
def generateFromTemplate (cfg : GenConfig) (analysis : Analysis)
    (commits : Option (List CommitRec)) (newVersion buildNumber : JStr) :
    JStr × JStr :=
  let publicChanges := publicSummary analysis
  let internalChanges := internalChangeLines cfg commits
  let releaseNotes :=
    "## v".data ++ newVersion ++ " - ".data ++ buildNumber ++ " [".data ++
      cfg.environment ++ "]\n\n### Public\n".data ++ publicChanges ++
      "\n\n### Internal\n".data ++
      joinWith "\n".data (internalChanges.map (fun c => "- ".data ++ c))
  let slackMessage :=
    "🚀 *v".data ++ newVersion ++ " - ".data ++ buildNumber ++ " [".data ++
      cfg.environment ++ "]*\n\n*Changes:*\n".data ++
      joinWith "\n".data ((slackCommitLines commits).map (fun c => "• ".data ++ c))
  (releaseNotes, slackMessage)

/-! ### `ChangelogManager` (modules/changelog.js) -/

/-- Mirror of `ChangelogManager.createInitialChangelog` (the repository name
comes from `process.env.GITHUB_REPOSITORY`, default `Repository`). -/
def createInitialChangelog (repoName : JStr) : JStr :=
  "# Changelog\n\nAll notable changes to ".data ++ repoName ++
    " will be documented in this file.\n\nThe format is based on [Keep a Changelog](https://keepachangelog.com/en/1.0.0/),\nand this project adheres to [Semantic Versioning](https://semver.org/spec/v2.0.0.html).\n\n".data

/-- Test of `/^##\s+\[?\d+\.\d+\.\d+/` against a (trimmed) line: `##`, at
least one whitespace character, an optional `[`, then a dotted digit triple
as a prefix. -/
def matchesVersionHeading (l : JStr) : Bool :=
  match l with
  | c1 :: c2 :: r =>
    if c1 = '#' && c2 = '#' then
      if r.takeWhile isJsWs = [] then false
      else
        let r1 := r.dropWhile isJsWs
        let r2 := if r1.head? = some '[' then r1.tail else r1
        let d1 := r2.takeWhile isDigitCh
        let r3 := r2.dropWhile isDigitCh
        if d1 = [] then false
        else if r3.head? = some '.' then
          let r4 := r3.tail
          let d2 := r4.takeWhile isDigitCh
          let r5 := r4.dropWhile isDigitCh
          if d2 = [] then false
          else if r5.head? = some '.' then r5.tail.takeWhile isDigitCh ≠ []
          else false
        else false
    else false
  | _ => false

/-- The indexed loop of `ChangelogManager.findInsertionPoint`. -/
def findInsertionPointGo : List JStr → Nat → Nat
  | [], i => i
  | l :: rest, i =>
    let line := trimJs l
    if matchesVersionHeading line then i
    else if i > 5 && line ≠ [] && ¬ ("#".data.isPrefixOf line) &&
        ¬ ("The format is".data.isPrefixOf line) then i
    else findInsertionPointGo rest (i + 1)

/-- Mirror of `ChangelogManager.findInsertionPoint(lines)` (falling through
the loop returns `lines.length`). -/
def findInsertionPoint (lines : List JStr) : Nat :=
  findInsertionPointGo lines 0

/-- Mirror of `ChangelogManager.insertEntry(currentContent, newEntry)`:
split into lines, splice the entry at the insertion index, re-join. -/
def insertEntry (currentContent newEntry : JStr) : JStr :=
  let lines := splitOnCh '\n' currentContent
  let insertIndex := findInsertionPoint lines
  joinWith "\n".data (lines.take insertIndex ++ [newEntry] ++ lines.drop insertIndex)

/-- A blank analysis record, used to build concrete test inputs. -/
def emptyAnalysis : Analysis :=
  { title := [], body := [], labels := [], baseBranch := [], headBranch := [],
    author := [], createdAt := [], mergedAt := [], filesChanged := [],
    changeTypes := [], isBreakingChange := false, isBugfix := false,
    isFeature := false, isChore := false }

/-! ### Helper lemmas -/

theorem dropWhile_append_jstr (p : Char → Bool) (l₁ l₂ : JStr) :
    (l₁ ++ l₂).dropWhile p =
      if (l₁.dropWhile p).isEmpty then l₂.dropWhile p else l₁.dropWhile p ++ l₂ := by
  induction l₁ with
  | nil => simp
  | cons c t ih =>
    by_cases h : p c = true
    · simpa [List.dropWhile_cons, h] using ih
    · simp [List.dropWhile_cons, h]

theorem trimRightJs_cons_not_ws (c : Char) (l : JStr) (h : isJsWs c = false) :
    trimRightJs (c :: l) = c :: trimRightJs l := by
  unfold trimRightJs
  rw [List.reverse_cons, dropWhile_append_jstr]
  by_cases he : (l.reverse.dropWhile isJsWs).isEmpty
  · simp [he, List.isEmpty_iff.mp he, List.dropWhile_cons, h]
  · simp [he]

theorem trimJs_cons_not_ws (c : Char) (l : JStr) (h : isJsWs c = false) :
    trimJs (c :: l) = c :: trimRightJs l := by
  unfold trimJs
  rw [List.dropWhile_cons]
  simp only [h]
  exact trimRightJs_cons_not_ws c l h

theorem semverValid_cons_e (l : JStr) : semverValid ('e' :: l) = false := by
  have ht : trimJs ('e' :: l) = 'e' :: trimRightJs l :=
    trimJs_cons_not_ws 'e' l (by decide)
  have hd : isDigitCh 'e' = false := by decide
  unfold semverValid semverParse
  split
  · rfl
  · rw [ht]
    simp [parseNumIdent, List.takeWhile_cons, hd]

/-- Claim C2 (counterexample): the claim asserts `cleanVersion` of
`version-` followed by a valid semantic version returns that version, but the
source checks the prefix `v` first and `version-1.2.3` starts with `v`, so the
remainder `ersion-1.2.3` is invalid and the function degrades to `1.0.0`. -/
theorem c2_clean_version_counterexample :
    semverValid "1.2.3".data = true ∧
    cleanVersion "version-1.2.3".data ≠ "1.2.3".data ∧
    cleanVersion "version-1.2.3".data = "1.0.0".data :=
  ⟨by decide, by decide, by decide⟩

/-- Claim C2 (amended): for the prefixes `v` and `release-` and every valid
semantic version `s`, `cleanVersion` of prefix-plus-`s` returns `s`; an input
of the form `version-` plus anything always yields `1.0.0` (the `v` branch of
the ordered prefix list fires first and leaves an invalid remainder); and any
input whose remainder after first-match prefix stripping is not a valid
semantic version yields `1.0.0`. -/
theorem c2_clean_version_amended (s : JStr) :
    (semverValid s = true →
      cleanVersion ('v' :: s) = s ∧ cleanVersion ("release-".data ++ s) = s) ∧
    cleanVersion ("version-".data ++ s) = "1.0.0".data ∧
    (semverValid (stripVersionPref s) = false → cleanVersion s = "1.0.0".data) := by
  refine ⟨fun h => ⟨?_, ?_⟩, ?_, fun h => ?_⟩
  · simp [cleanVersion, stripVersionPref, List.isPrefixOf, h]
  · simp [cleanVersion, stripVersionPref, List.isPrefixOf, h]
  · have h2 := semverValid_cons_e ('r' :: 's' :: 'i' :: 'o' :: 'n' :: '-' :: s)
    simp [cleanVersion, stripVersionPref, List.isPrefixOf, h2]
  · simp [cleanVersion, h]

/-- Claim C2 witness: the amended theorem applied at concrete inputs. -/
theorem c2_clean_version_amended_witness :
    cleanVersion ('v' :: "1.2.3".data) = "1.2.3".data ∧
    cleanVersion ("release-".data ++ "1.2.3".data) = "1.2.3".data ∧
    cleanVersion ("version-".data ++ "1.2.3".data) = "1.0.0".data ∧
    cleanVersion "abc".data = "1.0.0".data :=
  ⟨((c2_clean_version_amended "1.2.3".data).1 (by decide)).1,
   ((c2_clean_version_amended "1.2.3".data).1 (by decide)).2,
   (c2_clean_version_amended "1.2.3".data).2.1,
   ((c2_clean_version_amended "abc".data).2.2 (by decide))⟩

/-- Claim C4: under the development-grade policy (`isProduction = false`) the
derived `newVersion` is `cleanPreviousVersion ++ "-dev." ++ shortCommit` for
every latest tag and short commit id — the concatenation is never passed
through semantic-version validation — and with no tag (failed
`git describe`, so the latest tag defaults to `1.0.0`) and short commit
`abc1234` the result is `previousVersion = 1.0.0`,
`newVersion = 1.0.0-dev.abc1234`. -/
theorem c4_dev_version :
    (∀ (latestTag shortCommit inc pref : JStr),
      (generateVersion false pref latestTag inc shortCommit).newVersion =
        (generateVersion false pref latestTag inc shortCommit).cleanPreviousVersion
          ++ "-dev.".data ++ shortCommit ∧
      (generateVersion false pref latestTag inc shortCommit).previousVersion =
        latestTag ∧
      (generateVersion false pref latestTag inc shortCommit).cleanPreviousVersion =
        cleanVersion latestTag) ∧
    ((generateVersion false "v".data (getLatestTagResult 128 []) "patch".data
        "abc1234".data).previousVersion = "1.0.0".data ∧
     (generateVersion false "v".data (getLatestTagResult 128 []) "patch".data
        "abc1234".data).newVersion = "1.0.0-dev.abc1234".data) :=
  ⟨fun _ _ _ _ => ⟨rfl, rfl, rfl⟩, by decide, by decide⟩

theorem checkTrigger_eq_of_conds (cfg : TriggerConfigIn) (ctx : TriggerContext)
    (h1 : ctx.eventName = "pull_request".data) (h2 : ctx.pr.merged = true)
    (h3 : ctx.pr.baseRef = cfg.targetBranch ∨ ctx.pr.baseRef ∈ allowedBranches)
    (h4 : cfg.triggerLabel = [] ∨ cfg.triggerLabel ∈ ctx.pr.labels) :
    checkTriggerConditions cfg ctx = ⟨true, "All conditions met".data⟩ := by
  have hb : ¬ (ctx.pr.baseRef ≠ cfg.targetBranch ∧ ctx.pr.baseRef ∉ allowedBranches) := by
    tauto
  have hl : ¬ (cfg.triggerLabel ≠ [] ∧ cfg.triggerLabel ∉ ctx.pr.labels) := by
    tauto
  simp [checkTriggerConditions, h1, h2, hb, hl]

theorem checkTrigger_run_iff (cfg : TriggerConfigIn) (ctx : TriggerContext) :
    (checkTriggerConditions cfg ctx).run = true ↔
      (ctx.eventName = "pull_request".data ∧ ctx.pr.merged = true ∧
       (ctx.pr.baseRef = cfg.targetBranch ∨ ctx.pr.baseRef ∈ allowedBranches) ∧
       (cfg.triggerLabel = [] ∨ cfg.triggerLabel ∈ ctx.pr.labels)) := by
  constructor
  · intro h
    by_cases h1 : ctx.eventName = "pull_request".data
    · by_cases h2 : ctx.pr.merged = true
      · by_cases h3 : ctx.pr.baseRef = cfg.targetBranch ∨ ctx.pr.baseRef ∈ allowedBranches
        · by_cases h4 : cfg.triggerLabel = [] ∨ cfg.triggerLabel ∈ ctx.pr.labels
          · exact ⟨h1, h2, h3, h4⟩
          · exfalso
            have hb : ¬ (ctx.pr.baseRef ≠ cfg.targetBranch ∧
                ctx.pr.baseRef ∉ allowedBranches) := by tauto
            have hl : cfg.triggerLabel ≠ [] ∧ cfg.triggerLabel ∉ ctx.pr.labels := by
              tauto
            simp [checkTriggerConditions, h1, h2, hb, hl] at h
        · exfalso
          have hb : ctx.pr.baseRef ≠ cfg.targetBranch ∧
              ctx.pr.baseRef ∉ allowedBranches := by tauto
          simp [checkTriggerConditions, h1, h2, hb] at h
      · exfalso
        have h2' : ctx.pr.merged = false := by simpa using h2
        simp [checkTriggerConditions, h1, h2'] at h
    · exfalso
      simp [checkTriggerConditions, h1] at h
  · intro hc
    rw [checkTrigger_eq_of_conds cfg ctx hc.1 hc.2.1 hc.2.2.1 hc.2.2.2]

/-- Claim C3: the trigger evaluator applies its four checks in the fixed
order (event kind, merged flag, target branch allowed, trigger label),
short-circuits on the first failing check with that check's reason, and
returns run with reason `All conditions met` exactly when all checks pass. -/
theorem c3_trigger_conditions (cfg : TriggerConfigIn) (ctx : TriggerContext) :
    (ctx.eventName ≠ "pull_request".data →
      checkTriggerConditions cfg ctx = ⟨false, "Not a pull request event".data⟩) ∧
    (ctx.eventName = "pull_request".data → ctx.pr.merged = false →
      checkTriggerConditions cfg ctx = ⟨false, "PR is not merged".data⟩) ∧
    (ctx.eventName = "pull_request".data → ctx.pr.merged = true →
      ctx.pr.baseRef ≠ cfg.targetBranch → ctx.pr.baseRef ∉ allowedBranches →
      checkTriggerConditions cfg ctx =
        ⟨false, "Target branch ".data ++ ctx.pr.baseRef ++ " not in allowed list".data⟩) ∧
    (ctx.eventName = "pull_request".data → ctx.pr.merged = true →
      (ctx.pr.baseRef = cfg.targetBranch ∨ ctx.pr.baseRef ∈ allowedBranches) →
      cfg.triggerLabel ≠ [] → cfg.triggerLabel ∉ ctx.pr.labels →
      checkTriggerConditions cfg ctx =
        ⟨false, "Missing required label: ".data ++ cfg.triggerLabel⟩) ∧
    ((checkTriggerConditions cfg ctx).run = true ↔
      (ctx.eventName = "pull_request".data ∧ ctx.pr.merged = true ∧
       (ctx.pr.baseRef = cfg.targetBranch ∨ ctx.pr.baseRef ∈ allowedBranches) ∧
       (cfg.triggerLabel = [] ∨ cfg.triggerLabel ∈ ctx.pr.labels))) ∧
    ((checkTriggerConditions cfg ctx).run = true →
      checkTriggerConditions cfg ctx = ⟨true, "All conditions met".data⟩) := by
  refine ⟨fun h1 => ?_, fun h1 h2 => ?_, fun h1 h2 h3 h4 => ?_,
    fun h1 h2 h3 h4 h5 => ?_, ?_, ?_⟩
  · simp [checkTriggerConditions, h1]
  · simp [checkTriggerConditions, h1, h2]
  · simp [checkTriggerConditions, h1, h2, h3, h4]
  · have h3a : ¬ (ctx.pr.baseRef ≠ cfg.targetBranch ∧ ctx.pr.baseRef ∉ allowedBranches) := by
      tauto
    simp [checkTriggerConditions, h1, h2, h3a, h4, h5]
  · exact checkTrigger_run_iff cfg ctx
  · intro h
    have hc := (checkTrigger_run_iff cfg ctx).mp h
    exact checkTrigger_eq_of_conds cfg ctx hc.1 hc.2.1 hc.2.2.1 hc.2.2.2

/-- Claim C3 witness: the theorem applied at a concrete passing event. -/
theorem c3_trigger_conditions_witness :
    checkTriggerConditions ⟨"release-notes".data, "main".data⟩
      ⟨"pull_request".data, true, "main".data, ["release-notes".data]⟩ =
      ⟨true, "All conditions met".data⟩ := by
  have h := c3_trigger_conditions ⟨"release-notes".data, "main".data⟩
    ⟨"pull_request".data, true, "main".data, ["release-notes".data]⟩
  exact h.2.2.2.2.2 ((h.2.2.2.2.1).mpr ⟨rfl, rfl, Or.inl rfl, Or.inr (by decide)⟩)

/-- Claim C9: the trigger-label check uses exact case-sensitive string
equality (a run proceeds with a configured label only if that exact label is
on the PR), so a PR labelled `Release` does not satisfy a configured trigger
label `release` — unlike the change analyzer's label classification, which
lower-cases and substring-matches (a label `HotFix` sets the bugfix flag). -/
theorem c9_trigger_label_case_sensitive :
    (∀ (cfg : TriggerConfigIn) (ctx : TriggerContext),
      (checkTriggerConditions cfg ctx).run = true → cfg.triggerLabel ≠ [] →
      cfg.triggerLabel ∈ ctx.pr.labels) ∧
    checkTriggerConditions ⟨"release".data, "main".data⟩
      ⟨"pull_request".data, true, "main".data, ["Release".data]⟩ =
      ⟨false, "Missing required label: release".data⟩ ∧
    (analyzeChanges ⟨"t".data, none, ["HotFix".data], none, none, none, [], []⟩
      none []).isBugfix = true ∧
    ("HotFix".data : JStr) ≠ "fix".data := by
  refine ⟨fun cfg ctx h hne => ?_, by decide, by decide, by decide⟩
  have hc := (checkTrigger_run_iff cfg ctx).mp h
  exact hc.2.2.2.resolve_left hne

/-- Claim C9 witness: the universal part applied at a concrete passing run. -/
theorem c9_trigger_label_case_sensitive_witness :
    ("x".data : JStr) ∈ [("x".data : JStr)] :=
  c9_trigger_label_case_sensitive.1 ⟨"x".data, "main".data⟩
    ⟨"pull_request".data, true, "main".data, ["x".data]⟩ (by decide) (by decide)

/-- Claim C5: in the template fallback path exactly one public summary line
is chosen by the fixed priority order breaking, then feature, then bugfix,
then generic; with both the breaking and feature flags set the chosen line is
the breaking-changes message, never the features message, and that line
occurs in the generated release notes. -/
theorem c5_public_priority (cfg : GenConfig) (a : Analysis)
    (commits : Option (List CommitRec)) (newVersion buildNumber : JStr) :
    (a.isBreakingChange = true →
      publicSummary a = "Breaking changes - please review migration notes".data ∧
      publicSummary a ≠ "New features and enhancements".data) ∧
    (a.isBreakingChange = false → a.isFeature = true →
      publicSummary a = "New features and enhancements".data) ∧
    (a.isBreakingChange = false → a.isFeature = false → a.isBugfix = true →
      publicSummary a = "Bug fixes and stability improvements".data) ∧
    (a.isBreakingChange = false → a.isFeature = false → a.isBugfix = false →
      publicSummary a = "General improvements and bug fixes".data) ∧
    publicSummary a <:+:
      (generateFromTemplate cfg a commits newVersion buildNumber).1 := by
  refine ⟨fun h1 => ⟨by simp [publicSummary, h1], by simp [publicSummary, h1]⟩,
    fun h1 h2 => by simp [publicSummary, h1, h2],
    fun h1 h2 h3 => by simp [publicSummary, h1, h2, h3],
    fun h1 h2 h3 => by simp [publicSummary, h1, h2, h3], ?_⟩
  refine ⟨"## v".data ++ newVersion ++ " - ".data ++ buildNumber ++ " [".data ++
    cfg.environment ++ "]\n\n### Public\n".data,
    "\n\n### Internal\n".data ++
      joinWith "\n".data ((internalChangeLines cfg commits).map
        (fun c => "- ".data ++ c)), ?_⟩
  simp [generateFromTemplate, List.append_assoc]

/-- Claim C5 witness: an analysis with both flags yields the breaking
message and not the features message. -/
theorem c5_public_priority_witness :
    publicSummary { emptyAnalysis with isBreakingChange := true, isFeature := true } =
      "Breaking changes - please review migration notes".data ∧
    publicSummary { emptyAnalysis with isBreakingChange := true, isFeature := true } ≠
      "New features and enhancements".data :=
  (c5_public_priority ⟨"PROD".data, 10, false⟩
    { emptyAnalysis with isBreakingChange := true, isFeature := true }
    none [] []).1 rfl

/-- Claim C6 (counterexample): with an empty (but present) commit array the
template path's notification message has no bullet lines and no generic
line — the source's ternary tests the truthiness of the array, and an empty
JavaScript array is truthy, so the generic `Various improvements` line is
only used when the commit list is absent, contradicting the claim's
"including an empty commit list". -/
theorem c6_slack_counterexample :
    (generateFromTemplate ⟨"PROD".data, 10, false⟩ emptyAnalysis (some [])
      "1.0.0".data "20240101.1200".data).2 =
      "🚀 *v1.0.0 - 20240101.1200 [PROD]*\n\n*Changes:*\n".data ∧
    containsSub "Various improvements".data
      ((generateFromTemplate ⟨"PROD".data, 10, false⟩ emptyAnalysis (some [])
        "1.0.0".data "20240101.1200".data).2) = false := by
  constructor
  · decide
  · decide

/-- Claim C6 (amended): the template-path notification message is the
build/version/environment header followed by up to three commit-subject first
lines as bullet points; the generic `Various improvements` line is used only
when the commit list is absent (`null`), not when it is empty. -/
theorem c6_slack_bullets (cfg : GenConfig) (a : Analysis)
    (commits : Option (List CommitRec)) (nv b : JStr) :
    ((generateFromTemplate cfg a commits nv b).2 =
      "🚀 *v".data ++ nv ++ " - ".data ++ b ++ " [".data ++ cfg.environment ++
        "]*\n\n*Changes:*\n".data ++
        joinWith "\n".data ((slackCommitLines commits).map
          (fun c => "• ".data ++ c))) ∧
    (commits = none → slackCommitLines commits = ["Various improvements".data]) ∧
    (∀ cs, commits = some cs →
      slackCommitLines commits = (cs.take 3).map (fun c => firstLine c.message) ∧
      (slackCommitLines commits).length ≤ 3) := by
  refine ⟨?_, fun h => by simp [slackCommitLines, h], fun cs h => ⟨by simp [slackCommitLines, h], ?_⟩⟩
  · simp [generateFromTemplate, List.append_assoc]
  · subst h
    simp only [slackCommitLines, List.length_map, List.length_take]
    omega

/-- Claim C6 witness: the amended theorem applied to a one-commit list. -/
theorem c6_slack_bullets_witness :
    slackCommitLines (some [⟨"fix: a\nbody".data, "abc".data, "u".data⟩]) =
      [("fix: a".data : JStr)] ∧
    (slackCommitLines (some [⟨"fix: a\nbody".data, "abc".data, "u".data⟩])).length ≤ 3 := by
  have h := ((c6_slack_bullets ⟨"PROD".data, 10, false⟩ emptyAnalysis
    (some [⟨"fix: a\nbody".data, "abc".data, "u".data⟩]) [] []).2.2
    [⟨"fix: a\nbody".data, "abc".data, "u".data⟩] rfl)
  exact ⟨h.1.trans (by decide), h.2⟩

theorem findInsertionPointGo_le_length (lines : List JStr) (i : Nat) :
    findInsertionPointGo lines i ≤ i + lines.length := by
  induction lines generalizing i with
  | nil => simp [findInsertionPointGo]
  | cons l rest ih =>
    simp only [findInsertionPointGo]
    split
    · omega
    · split
      · omega
      · have := ih (i + 1)
        simp only [List.length_cons]
        omega

/-- Claim C10: the changelog insertion routine is purely insertive — the
updated content is the original line list with the new entry spliced in at
the single insertion index (which is at most the line count), so every
original line survives unchanged and in order (the original line list is a
sublist of the updated one). -/
theorem c10_insert_entry_pure (content entry : JStr) :
    insertEntry content entry =
      joinWith "\n".data
        ((splitOnCh '\n' content).take (findInsertionPoint (splitOnCh '\n' content))
          ++ [entry] ++
          (splitOnCh '\n' content).drop (findInsertionPoint (splitOnCh '\n' content))) ∧
    (splitOnCh '\n' content).Sublist
      ((splitOnCh '\n' content).take (findInsertionPoint (splitOnCh '\n' content))
        ++ [entry] ++
        (splitOnCh '\n' content).drop (findInsertionPoint (splitOnCh '\n' content))) ∧
    findInsertionPoint (splitOnCh '\n' content) ≤ (splitOnCh '\n' content).length := by
  refine ⟨rfl, ?_, ?_⟩
  · conv_lhs => rw [← List.take_append_drop
      (findInsertionPoint (splitOnCh '\n' content)) (splitOnCh '\n' content)]
    rw [List.append_assoc]
    exact (List.Sublist.refl _).append (List.sublist_cons_self _ _)
  · have := findInsertionPointGo_le_length (splitOnCh '\n' content) 0
    simpa [findInsertionPoint] using this

/-- Claim C1 (counterexample): for a reply containing only a SLACK block the
parser does not derive the release-notes field from the found block by the
shortening rule — it uses the entire reply as the release-notes body, so the
claim's "if exactly one block is found, the other field is derived from it by
the same rule" fails for this direction. -/
theorem c1_parse_counterexample :
    extractReleaseNotesBlock "SLACK_MESSAGE_START\nhello\nSLACK_MESSAGE_END".data = [] ∧
    extractSlackBlock "SLACK_MESSAGE_START\nhello\nSLACK_MESSAGE_END".data = "hello".data ∧
    parseAIResponse "SLACK_MESSAGE_START\nhello\nSLACK_MESSAGE_END".data "20240101.1200".data =
      ("SLACK_MESSAGE_START\nhello\nSLACK_MESSAGE_END".data, "hello".data) ∧
    ("SLACK_MESSAGE_START\nhello\nSLACK_MESSAGE_END".data : JStr) ≠
      extractSlackSummary "hello".data "20240101.1200".data :=
  ⟨by decide, by decide, by decide, by decide⟩

/-- Claim C1 (amended): parsing a generation-service reply is total and never
fails; if neither delimited block is found (non-empty after trimming), the
entire reply becomes the release-notes body and the notification message is
derived from its first few non-empty lines prefixed with a build
announcement; if only the release-notes block is found the notification
message is derived from it by the same shortening rule; if only the
notification block is found the release-notes body is the entire reply (not
a derivation of the found block); generation as a whole falls to the
template path only when the backend call errors or returns empty content. -/
theorem c1_parse_policy (s b : JStr) :
    (extractReleaseNotesBlock s = [] → extractSlackBlock s = [] →
      parseAIResponse s b =
        (replaceBuildNumber b s, replaceBuildNumber b (extractSlackSummary s b))) ∧
    (extractReleaseNotesBlock s = [] → extractSlackBlock s ≠ [] →
      parseAIResponse s b =
        (replaceBuildNumber b s, replaceBuildNumber b (extractSlackBlock s))) ∧
    (extractReleaseNotesBlock s ≠ [] → extractSlackBlock s = [] →
      parseAIResponse s b =
        (replaceBuildNumber b (extractReleaseNotesBlock s),
         replaceBuildNumber b (extractSlackSummary (extractReleaseNotesBlock s) b))) ∧
    (extractReleaseNotesBlock s ≠ [] → extractSlackBlock s ≠ [] →
      parseAIResponse s b =
        (replaceBuildNumber b (extractReleaseNotesBlock s),
         replaceBuildNumber b (extractSlackBlock s))) ∧
    (∀ out, (generateWithAI (some out) b).isSome = true) ∧
    generateWithAI none b = none := by
  refine ⟨fun h1 h2 => ?_, fun h1 h2 => ?_, fun h1 h2 => ?_, fun h1 h2 => ?_,
    fun out => rfl, rfl⟩ <;>
  simp [parseAIResponse, h1, h2]

/-- Claim C1 witness: the amended theorem applied to a reply containing both
blocks. -/
theorem c1_parse_policy_witness :
    extractReleaseNotesBlock
      "RELEASE_NOTES_START\nnotes\nRELEASE_NOTES_END\nSLACK_MESSAGE_START\nmsg\nSLACK_MESSAGE_END".data ≠ [] ∧
    extractSlackBlock
      "RELEASE_NOTES_START\nnotes\nRELEASE_NOTES_END\nSLACK_MESSAGE_START\nmsg\nSLACK_MESSAGE_END".data ≠ [] ∧
    parseAIResponse
      "RELEASE_NOTES_START\nnotes\nRELEASE_NOTES_END\nSLACK_MESSAGE_START\nmsg\nSLACK_MESSAGE_END".data
      "B1".data =
      (replaceBuildNumber "B1".data (extractReleaseNotesBlock
        "RELEASE_NOTES_START\nnotes\nRELEASE_NOTES_END\nSLACK_MESSAGE_START\nmsg\nSLACK_MESSAGE_END".data),
       replaceBuildNumber "B1".data (extractSlackBlock
        "RELEASE_NOTES_START\nnotes\nRELEASE_NOTES_END\nSLACK_MESSAGE_START\nmsg\nSLACK_MESSAGE_END".data)) :=
  ⟨by decide, by decide,
   (c1_parse_policy
     "RELEASE_NOTES_START\nnotes\nRELEASE_NOTES_END\nSLACK_MESSAGE_START\nmsg\nSLACK_MESSAGE_END".data
     "B1".data).2.2.2.1 (by decide) (by decide)⟩

theorem mem_addChangeType (s : List JStr) (x y : JStr) :
    y ∈ addChangeType s x ↔ y ∈ s ∨ y = x := by
  unfold addChangeType
  by_cases h : x ∈ s
  · simp only [h, if_true]
    constructor
    · exact Or.inl
    · rintro (hy | rfl)
      · exact hy
      · exact h
  · simp [h]

theorem commitStep_fields (a : Analysis) (c : CommitRec) :
    (commitStep a c).isBreakingChange = (a.isBreakingChange || commitIsBreaking c) ∧
    (commitStep a c).isFeature = (a.isFeature || commitIsFeat c) ∧
    (commitStep a c).isBugfix = (a.isBugfix || commitIsFix c) ∧
    (commitStep a c).isChore = (a.isChore || commitIsChore c) ∧
    (commitStep a c).filesChanged = a.filesChanged ∧
    (∀ y, y ∈ (commitStep a c).changeTypes ↔
      y ∈ a.changeTypes ∨ (commitIsBreaking c = true ∧ y = "breaking".data) ∨
      (commitIsFeat c = true ∧ y = "feature".data) ∨
      (commitIsFix c = true ∧ y = "bugfix".data) ∨
      (commitIsChore c = true ∧ y = "chore".data)) := by
  unfold commitStep
  cases h1 : commitIsBreaking c <;> cases h2 : commitIsFeat c <;>
    cases h3 : commitIsFix c <;> cases h4 : commitIsChore c <;>
    refine ⟨by simp, by simp, by simp, by simp, by simp, fun y => ?_⟩ <;>
    simp [mem_addChangeType] <;> tauto

theorem labelStep_fields (a : Analysis) (lab : JStr) :
    (labelStep a lab).isBreakingChange = (a.isBreakingChange || labelIsBreaking lab) ∧
    (labelStep a lab).isFeature = (a.isFeature || labelIsFeature lab) ∧
    (labelStep a lab).isBugfix = (a.isBugfix || labelIsFix lab) ∧
    (labelStep a lab).isChore = a.isChore ∧
    (labelStep a lab).filesChanged = a.filesChanged ∧
    (∀ y, y ∈ (labelStep a lab).changeTypes ↔
      y ∈ a.changeTypes ∨ (labelIsBreaking lab = true ∧ y = "breaking".data) ∨
      (labelIsFix lab = true ∧ y = "bugfix".data) ∨
      (labelIsFeature lab = true ∧ y = "feature".data)) := by
  unfold labelStep
  cases h1 : labelIsBreaking lab <;> cases h2 : labelIsFix lab <;>
    cases h3 : labelIsFeature lab <;>
    refine ⟨by simp, by simp, by simp, by simp, by simp, fun y => ?_⟩ <;>
    simp [mem_addChangeType] <;> tauto

/-- Contribution of one commit's classification to the change-type set. -/
def commitTypeHit (c : CommitRec) (y : JStr) : Prop :=
  (commitIsBreaking c = true ∧ y = "breaking".data) ∨
  (commitIsFeat c = true ∧ y = "feature".data) ∨
  (commitIsFix c = true ∧ y = "bugfix".data) ∨
  (commitIsChore c = true ∧ y = "chore".data)

/-- Contribution of one label's classification to the change-type set. -/
def labelTypeHit (lab : JStr) (y : JStr) : Prop :=
  (labelIsBreaking lab = true ∧ y = "breaking".data) ∨
  (labelIsFix lab = true ∧ y = "bugfix".data) ∨
  (labelIsFeature lab = true ∧ y = "feature".data)

theorem foldl_commitStep_fields (cs : List CommitRec) (a : Analysis) :
    (cs.foldl commitStep a).isBreakingChange =
      (a.isBreakingChange || cs.any commitIsBreaking) ∧
    (cs.foldl commitStep a).isFeature = (a.isFeature || cs.any commitIsFeat) ∧
    (cs.foldl commitStep a).isBugfix = (a.isBugfix || cs.any commitIsFix) ∧
    (cs.foldl commitStep a).isChore = (a.isChore || cs.any commitIsChore) ∧
    (cs.foldl commitStep a).filesChanged = a.filesChanged ∧
    (∀ y, y ∈ (cs.foldl commitStep a).changeTypes ↔
      y ∈ a.changeTypes ∨ ∃ c ∈ cs, commitTypeHit c y) := by
  induction cs generalizing a with
  | nil => simp
  | cons c cs ih =>
    obtain ⟨h1, h2, h3, h4, h5, h6⟩ := commitStep_fields a c
    obtain ⟨i1, i2, i3, i4, i5, i6⟩ := ih (commitStep a c)
    simp only [List.foldl_cons, List.any_cons]
    refine ⟨?_, ?_, ?_, ?_, ?_, fun y => ?_⟩
    · rw [i1, h1, Bool.or_assoc]
    · rw [i2, h2, Bool.or_assoc]
    · rw [i3, h3, Bool.or_assoc]
    · rw [i4, h4, Bool.or_assoc]
    · rw [i5, h5]
    · rw [i6 y]
      constructor
      · rintro (hy | hex)
        · rw [h6 y] at hy
          rcases hy with hy | hy
          · exact Or.inl hy
          · exact Or.inr ⟨c, List.mem_cons_self c cs, hy⟩
        · obtain ⟨d, hd, hdy⟩ := hex
          exact Or.inr ⟨d, List.mem_cons_of_mem c hd, hdy⟩
      · rintro (hy | ⟨d, hd, hdy⟩)
        · exact Or.inl ((h6 y).mpr (Or.inl hy))
        · rcases List.mem_cons.mp hd with rfl | hd2
          · exact Or.inl ((h6 y).mpr (Or.inr hdy))
          · exact Or.inr ⟨d, hd2, hdy⟩

theorem foldl_labelStep_fields (labs : List JStr) (a : Analysis) :
    (labs.foldl labelStep a).isBreakingChange =
      (a.isBreakingChange || labs.any labelIsBreaking) ∧
    (labs.foldl labelStep a).isFeature = (a.isFeature || labs.any labelIsFeature) ∧
    (labs.foldl labelStep a).isBugfix = (a.isBugfix || labs.any labelIsFix) ∧
    (labs.foldl labelStep a).isChore = a.isChore ∧
    (labs.foldl labelStep a).filesChanged = a.filesChanged ∧
    (∀ y, y ∈ (labs.foldl labelStep a).changeTypes ↔
      y ∈ a.changeTypes ∨ ∃ lab ∈ labs, labelTypeHit lab y) := by
  induction labs generalizing a with
  | nil => simp
  | cons lab labs ih =>
    obtain ⟨h1, h2, h3, h4, h5, h6⟩ := labelStep_fields a lab
    obtain ⟨i1, i2, i3, i4, i5, i6⟩ := ih (labelStep a lab)
    simp only [List.foldl_cons, List.any_cons]
    refine ⟨?_, ?_, ?_, ?_, ?_, fun y => ?_⟩
    · rw [i1, h1, Bool.or_assoc]
    · rw [i2, h2, Bool.or_assoc]
    · rw [i3, h3, Bool.or_assoc]
    · rw [i4, h4]
    · rw [i5, h5]
    · rw [i6 y]
      constructor
      · rintro (hy | hex)
        · rw [h6 y] at hy
          rcases hy with hy | hy
          · exact Or.inl hy
          · exact Or.inr ⟨lab, List.mem_cons_self lab labs, hy⟩
        · obtain ⟨d, hd, hdy⟩ := hex
          exact Or.inr ⟨d, List.mem_cons_of_mem lab hd, hdy⟩
      · rintro (hy | ⟨d, hd, hdy⟩)
        · exact Or.inl ((h6 y).mpr (Or.inl hy))
        · rcases List.mem_cons.mp hd with rfl | hd2
          · exact Or.inl ((h6 y).mpr (Or.inr hdy))
          · exact Or.inr ⟨d, hd2, hdy⟩

theorem diffStep_preserves (a : Analysis) (line : JStr) :
    (diffStep a line).isBreakingChange = a.isBreakingChange ∧
    (diffStep a line).isFeature = a.isFeature ∧
    (diffStep a line).isBugfix = a.isBugfix ∧
    (diffStep a line).isChore = a.isChore ∧
    (diffStep a line).changeTypes = a.changeTypes := by
  unfold diffStep
  repeat' split
  all_goals simp

theorem foldl_diffStep_preserves (lines : List JStr) (a : Analysis) :
    ((lines.foldl diffStep a).isBreakingChange = a.isBreakingChange ∧
     (lines.foldl diffStep a).isFeature = a.isFeature ∧
     (lines.foldl diffStep a).isBugfix = a.isBugfix ∧
     (lines.foldl diffStep a).isChore = a.isChore ∧
     (lines.foldl diffStep a).changeTypes = a.changeTypes) := by
  induction lines generalizing a with
  | nil => simp
  | cons l lines ih =>
    obtain ⟨h1, h2, h3, h4, h5⟩ := diffStep_preserves a l
    obtain ⟨i1, i2, i3, i4, i5⟩ := ih (diffStep a l)
    simp only [List.foldl_cons]
    exact ⟨i1.trans h1, i2.trans h2, i3.trans h3, i4.trans h4, i5.trans h5⟩

theorem analyzeChanges_fields (pr : PRMeta) (diff : Option JStr)
    (cs : List CommitRec) :
    (analyzeChanges pr diff cs).isBreakingChange =
      (cs.any commitIsBreaking || pr.labels.any labelIsBreaking) ∧
    (analyzeChanges pr diff cs).isFeature =
      (cs.any commitIsFeat || pr.labels.any labelIsFeature) ∧
    (analyzeChanges pr diff cs).isBugfix =
      (cs.any commitIsFix || pr.labels.any labelIsFix) ∧
    (analyzeChanges pr diff cs).isChore = cs.any commitIsChore ∧
    (∀ y, y ∈ (analyzeChanges pr diff cs).changeTypes ↔
      (∃ c ∈ cs, commitTypeHit c y) ∨ ∃ lab ∈ pr.labels, labelTypeHit lab y) := by
  obtain ⟨c1, c2, c3, c4, c5, c6⟩ := foldl_commitStep_fields cs (initialAnalysis pr)
  obtain ⟨l1, l2, l3, l4, l5, l6⟩ :=
    foldl_labelStep_fields pr.labels (cs.foldl commitStep (initialAnalysis pr))
  have hcore :
      (classifiedAnalysis pr cs).isBreakingChange =
        (cs.any commitIsBreaking || pr.labels.any labelIsBreaking) ∧
      (classifiedAnalysis pr cs).isFeature =
        (cs.any commitIsFeat || pr.labels.any labelIsFeature) ∧
      (classifiedAnalysis pr cs).isBugfix =
        (cs.any commitIsFix || pr.labels.any labelIsFix) ∧
      (classifiedAnalysis pr cs).isChore = cs.any commitIsChore ∧
      (∀ y, y ∈ (classifiedAnalysis pr cs).changeTypes ↔
        (∃ c ∈ cs, commitTypeHit c y) ∨ ∃ lab ∈ pr.labels, labelTypeHit lab y) := by
    refine ⟨?_, ?_, ?_, ?_, fun y => ?_⟩
    · rw [classifiedAnalysis, l1, c1]
      simp [initialAnalysis]
    · rw [classifiedAnalysis, l2, c2]
      simp [initialAnalysis]
    · rw [classifiedAnalysis, l3, c3]
      simp [initialAnalysis]
    · rw [classifiedAnalysis, l4, c4]
      simp [initialAnalysis]
    · rw [classifiedAnalysis] at *
      rw [l6 y, c6 y]
      simp [initialAnalysis]
  cases diff with
  | none => simpa [analyzeChanges] using hcore
  | some d =>
    by_cases hd : d = []
    · simpa [analyzeChanges, hd] using hcore
    · obtain ⟨p1, p2, p3, p4, p5⟩ :=
        foldl_diffStep_preserves (splitOnCh '\n' d) (classifiedAnalysis pr cs)
      have he : analyzeChanges pr (some d) cs =
          (splitOnCh '\n' d).foldl diffStep (classifiedAnalysis pr cs) := by
        simp [analyzeChanges, hd]
      rw [he, p1, p2, p3, p4]
      refine ⟨hcore.1, hcore.2.1, hcore.2.2.1, hcore.2.2.2.1, fun y => ?_⟩
      rw [p5]
      exact hcore.2.2.2.2 y

theorem any_eq_of_perm {α : Type} {l1 l2 : List α} (h : l1.Perm l2) (p : α → Bool) :
    l1.any p = l2.any p := by
  induction h with
  | nil => rfl
  | cons x _ ih => simp [ih]
  | swap x y l => simp [List.any_cons, Bool.or_left_comm]
  | trans _ _ ih1 ih2 => exact ih1.trans ih2

/-- Claim C7: the change analyzer is additive and order-invariant — each
classification flag and the membership of the change-type set depend only on
which commit messages and label names are present (permuting commits or
labels yields the same flags and the same change-type set), and within a
scan a flag set true by any evidence is never reset by a later commit or
label step. -/
theorem c7_analyzer_order_invariant (pr : PRMeta) (diff : Option JStr)
    (cs cs2 : List CommitRec) (labs2 : List JStr)
    (hc : cs.Perm cs2) (hl : pr.labels.Perm labs2) :
    ((analyzeChanges pr diff cs).isBreakingChange =
      (analyzeChanges { pr with labels := labs2 } diff cs2).isBreakingChange) ∧
    ((analyzeChanges pr diff cs).isFeature =
      (analyzeChanges { pr with labels := labs2 } diff cs2).isFeature) ∧
    ((analyzeChanges pr diff cs).isBugfix =
      (analyzeChanges { pr with labels := labs2 } diff cs2).isBugfix) ∧
    ((analyzeChanges pr diff cs).isChore =
      (analyzeChanges { pr with labels := labs2 } diff cs2).isChore) ∧
    (∀ y, y ∈ (analyzeChanges pr diff cs).changeTypes ↔
      y ∈ (analyzeChanges { pr with labels := labs2 } diff cs2).changeTypes) ∧
    (∀ (b : Analysis) (c : CommitRec),
      (b.isBreakingChange = true → (commitStep b c).isBreakingChange = true) ∧
      (b.isFeature = true → (commitStep b c).isFeature = true) ∧
      (b.isBugfix = true → (commitStep b c).isBugfix = true) ∧
      (b.isChore = true → (commitStep b c).isChore = true)) ∧
    (∀ (b : Analysis) (lab : JStr),
      (b.isBreakingChange = true → (labelStep b lab).isBreakingChange = true) ∧
      (b.isFeature = true → (labelStep b lab).isFeature = true) ∧
      (b.isBugfix = true → (labelStep b lab).isBugfix = true) ∧
      (b.isChore = true → (labelStep b lab).isChore = true)) := by
  obtain ⟨a1, a2, a3, a4, a5⟩ := analyzeChanges_fields pr diff cs
  obtain ⟨b1, b2, b3, b4, b5⟩ :=
    analyzeChanges_fields { pr with labels := labs2 } diff cs2
  have hlabs : ({ pr with labels := labs2 } : PRMeta).labels = labs2 := rfl
  refine ⟨?_, ?_, ?_, ?_, fun y => ?_, fun b c => ?_, fun b lab => ?_⟩
  · rw [a1, b1, hlabs, any_eq_of_perm hc, any_eq_of_perm hl]
  · rw [a2, b2, hlabs, any_eq_of_perm hc, any_eq_of_perm hl]
  · rw [a3, b3, hlabs, any_eq_of_perm hc, any_eq_of_perm hl]
  · rw [a4, b4, any_eq_of_perm hc]
  · rw [a5 y, b5 y, hlabs]
    simp only [hc.mem_iff, hl.mem_iff]
  · obtain ⟨h1, h2, h3, h4, _, _⟩ := commitStep_fields b c
    refine ⟨fun hb => ?_, fun hb => ?_, fun hb => ?_, fun hb => ?_⟩ <;>
      simp [h1, h2, h3, h4, hb]
  · obtain ⟨h1, h2, h3, h4, _, _⟩ := labelStep_fields b lab
    refine ⟨fun hb => ?_, fun hb => ?_, fun hb => ?_, fun hb => ?_⟩ <;>
      simp [h1, h2, h3, h4, hb]

/-- Claim C7 witness: the theorem applied to a concrete swap of two commits
and two labels. -/
theorem c7_analyzer_order_invariant_witness :
    ((analyzeChanges
        ⟨"t".data, none, ["Breaking".data, "Enhancement".data], none, none, none, [], []⟩
        none
        [⟨"feat: x".data, "a".data, "u".data⟩, ⟨"fix: y".data, "b".data, "w".data⟩]).isFeature =
      (analyzeChanges
        ⟨"t".data, none, ["Enhancement".data, "Breaking".data], none, none, none, [], []⟩
        none
        [⟨"fix: y".data, "b".data, "w".data⟩, ⟨"feat: x".data, "a".data, "u".data⟩]).isFeature) ∧
    (("feature".data : JStr) ∈
        (analyzeChanges
          ⟨"t".data, none, ["Breaking".data, "Enhancement".data], none, none, none, [], []⟩
          none
          [⟨"feat: x".data, "a".data, "u".data⟩, ⟨"fix: y".data, "b".data, "w".data⟩]).changeTypes ↔
      ("feature".data : JStr) ∈
        (analyzeChanges
          ⟨"t".data, none, ["Enhancement".data, "Breaking".data], none, none, none, [], []⟩
          none
          [⟨"fix: y".data, "b".data, "w".data⟩, ⟨"feat: x".data, "a".data, "u".data⟩]).changeTypes) := by
  have h := c7_analyzer_order_invariant
    ⟨"t".data, none, ["Breaking".data, "Enhancement".data], none, none, none, [], []⟩
    none
    [⟨"feat: x".data, "a".data, "u".data⟩, ⟨"fix: y".data, "b".data, "w".data⟩]
    [⟨"fix: y".data, "b".data, "w".data⟩, ⟨"feat: x".data, "a".data, "u".data⟩]
    ["Enhancement".data, "Breaking".data]
    (List.Perm.swap (⟨"fix: y".data, "b".data, "w".data⟩ : CommitRec)
      (⟨"feat: x".data, "a".data, "u".data⟩ : CommitRec) [])
    (List.Perm.swap "Enhancement".data "Breaking".data [])
  exact ⟨h.2.1, h.2.2.2.2.1 "feature".data⟩

theorem matchesVersionHeading_not_hash (c : Char) (l : JStr) (hc : c ≠ '#') :
    matchesVersionHeading (c :: l) = false := by
  cases l with
  | nil => rfl
  | cons c2 r => simp [matchesVersionHeading, hc]

theorem findInsertionPointGo_le_match (lines : List JStr) (i j : Nat)
    (hj : j < lines.length)
    (hm : matchesVersionHeading (trimJs (lines.getD j [])) = true) :
    findInsertionPointGo lines i ≤ i + j := by
  induction lines generalizing i j with
  | nil => simp at hj
  | cons l rest ih =>
    simp only [findInsertionPointGo]
    split
    · omega
    · split
      · omega
      · rename_i hv _
        cases j with
        | zero =>
          exfalso
          simp only [List.getD_cons_zero] at hm
          exact hv hm
        | succ k =>
          have hk := ih (i + 1) k (by simpa using hj) (by simpa using hm)
          omega

theorem splitOnCh_append_cons (sep : Char) (x y : JStr) (hx : sep ∉ x) :
    splitOnCh sep (x ++ sep :: y) = x :: splitOnCh sep y := by
  induction x with
  | nil => simp [splitOnCh]
  | cons c t ih =>
    have hc : c ≠ sep := by
      intro h
      exact hx (h ▸ List.mem_cons_self c t)
    have ht : sep ∉ t := fun h => hx (List.mem_cons_of_mem c h)
    simp only [List.cons_append, splitOnCh, if_neg hc, List.append_eq, ih ht]

theorem splitOnCh_cons_sep (sep : Char) (y : JStr) :
    splitOnCh sep (sep :: y) = [] :: splitOnCh sep y := by
  simp [splitOnCh]

theorem findInsertionPointGo_cons_skip (l : JStr) (rest : List JStr) (i : Nat)
    (h1 : matchesVersionHeading (trimJs l) = false) (h2 : i ≤ 5) :
    findInsertionPointGo (l :: rest) i = findInsertionPointGo rest (i + 1) := by
  have hi : decide (i > 5) = false := by
    simp
    omega
  simp [findInsertionPointGo, h1, hi]

theorem findInsertionPointGo_cons_empty (rest : List JStr) (i : Nat) :
    findInsertionPointGo ([] :: rest) i = findInsertionPointGo rest (i + 1) := by
  simp [findInsertionPointGo, trimJs, trimRightJs, matchesVersionHeading]

theorem initialChangelog_lines (r : JStr) (hr : '\n' ∉ r) :
    splitOnCh '\n' (createInitialChangelog r) =
      ["# Changelog".data, [],
       "All notable changes to ".data ++ r ++ " will be documented in this file.".data,
       [],
       "The format is based on [Keep a Changelog](https://keepachangelog.com/en/1.0.0/),".data,
       "and this project adheres to [Semantic Versioning](https://semver.org/spec/v2.0.0.html).".data,
       [], []] := by
  have hA : ('\n' : Char) ∉ "# Changelog".data := by decide
  have hB : ('\n' : Char) ∉
      ("All notable changes to ".data ++ r ++ " will be documented in this file.".data) := by
    intro h
    rcases List.mem_append.mp h with h1 | h2
    · rcases List.mem_append.mp h1 with h3 | h4
      · exact absurd h3 (by decide)
      · exact hr h4
    · exact absurd h2 (by decide)
  have hC : ('\n' : Char) ∉
      "The format is based on [Keep a Changelog](https://keepachangelog.com/en/1.0.0/),".data := by
    decide
  have hD : ('\n' : Char) ∉
      "and this project adheres to [Semantic Versioning](https://semver.org/spec/v2.0.0.html).".data := by
    decide
  have he : createInitialChangelog r =
      "# Changelog".data ++ '\n' :: ('\n' ::
        (("All notable changes to ".data ++ r ++ " will be documented in this file.".data) ++ '\n' :: ('\n' ::
          ("The format is based on [Keep a Changelog](https://keepachangelog.com/en/1.0.0/),".data ++ '\n' ::
            ("and this project adheres to [Semantic Versioning](https://semver.org/spec/v2.0.0.html).".data ++ '\n' ::
              ('\n' :: ([] : JStr))))))) := by
    have h1 : ("# Changelog\n\nAll notable changes to " : String).data =
        "# Changelog".data ++ '\n' :: ('\n' :: "All notable changes to ".data) := by decide
    have h2 : (" will be documented in this file.\n\nThe format is based on [Keep a Changelog](https://keepachangelog.com/en/1.0.0/),\nand this project adheres to [Semantic Versioning](https://semver.org/spec/v2.0.0.html).\n\n" : String).data =
        " will be documented in this file.".data ++ '\n' :: ('\n' ::
          ("The format is based on [Keep a Changelog](https://keepachangelog.com/en/1.0.0/),".data ++ '\n' ::
            ("and this project adheres to [Semantic Versioning](https://semver.org/spec/v2.0.0.html).".data ++ '\n' ::
              ('\n' :: ([] : JStr))))) := by decide
    rw [createInitialChangelog, h1, h2]
    simp [List.append_assoc]
  rw [he, splitOnCh_append_cons '\n' _ _ hA, splitOnCh_cons_sep,
      splitOnCh_append_cons '\n' _ _ hB, splitOnCh_cons_sep,
      splitOnCh_append_cons '\n' _ _ hC,
      splitOnCh_append_cons '\n' _ _ hD, splitOnCh_cons_sep]
  rfl

theorem initialChangelog_insertion (r : JStr) (hr : '\n' ∉ r) :
    findInsertionPoint (splitOnCh '\n' (createInitialChangelog r)) =
      (splitOnCh '\n' (createInitialChangelog r)).length := by
  rw [initialChangelog_lines r hr]
  have hsh : ("All notable changes to ".data ++ r ++
      " will be documented in this file.".data : JStr) =
      'A' :: ("ll notable changes to ".data ++ r ++
        " will be documented in this file.".data) := rfl
  have hL2 : matchesVersionHeading (trimJs
      ("All notable changes to ".data ++ r ++
        " will be documented in this file.".data)) = false := by
    rw [hsh, trimJs_cons_not_ws 'A' _ (by decide)]
    exact matchesVersionHeading_not_hash 'A' _ (by decide)
  rw [findInsertionPoint,
      findInsertionPointGo_cons_skip _ _ 0 (by decide) (by omega),
      findInsertionPointGo_cons_skip _ _ 1 (by decide) (by omega),
      findInsertionPointGo_cons_skip _ _ 2 hL2 (by omega),
      findInsertionPointGo_cons_skip _ _ 3 (by decide) (by omega),
      findInsertionPointGo_cons_skip _ _ 4 (by decide) (by omega),
      findInsertionPointGo_cons_skip _ _ 5 (by decide) (by omega),
      findInsertionPointGo_cons_empty, findInsertionPointGo_cons_empty]
  rfl

/-- Claim C8: for every changelog whose line list has a line matching the
version-heading pattern (such as `## [1.0.0] - 2024-01-01`), the computed
insertion index is at most that line's index, so the spliced new entry lands
strictly before the first such line; and for a changelog freshly created by
the initial-changelog template the insertion index is the line count, i.e.
the entry goes after the header block at the end of the file. -/
theorem c8_changelog_insertion :
    (∀ (content entry : JStr) (j : Nat),
      j < (splitOnCh '\n' content).length →
      matchesVersionHeading (trimJs ((splitOnCh '\n' content).getD j [])) = true →
      findInsertionPoint (splitOnCh '\n' content) ≤ j ∧
      insertEntry content entry =
        joinWith "\n".data
          ((splitOnCh '\n' content).take (findInsertionPoint (splitOnCh '\n' content))
            ++ [entry] ++
            (splitOnCh '\n' content).drop (findInsertionPoint (splitOnCh '\n' content)))) ∧
    (∀ r, '\n' ∉ r →
      findInsertionPoint (splitOnCh '\n' (createInitialChangelog r)) =
        (splitOnCh '\n' (createInitialChangelog r)).length) := by
  refine ⟨fun content entry j hj hm => ⟨?_, rfl⟩, fun r hr =>
    initialChangelog_insertion r hr⟩
  have h := findInsertionPointGo_le_match (splitOnCh '\n' content) 0 j hj hm
  simpa [findInsertionPoint] using h

/-- Claim C8 witness: the theorem applied to a changelog with an existing
`## [1.0.0]` heading at line 2 and to the freshly created template. -/
theorem c8_changelog_insertion_witness :
    findInsertionPoint (splitOnCh '\n' "# Changelog\n\n## [1.0.0] - 2024-01-01\nold".data) ≤ 2 ∧
    findInsertionPoint (splitOnCh '\n' (createInitialChangelog "Repository".data)) =
      (splitOnCh '\n' (createInitialChangelog "Repository".data)).length :=
  ⟨(c8_changelog_insertion.1 "# Changelog\n\n## [1.0.0] - 2024-01-01\nold".data
      "NEW".data 2 (by decide) (by decide)).1,
   c8_changelog_insertion.2 "Repository".data (by decide)⟩
